import Mathlib

/-!
Shallow embedding of the HECVAT assessment scoring scripts
(`generate_summary.py`, `generate_delta.py`, `parse_hecvat.py`):
the assessment aggregator, the raw/weighted score calculator, the
confidence-adjusted score, the delta engine and the repo-assessability
classifier, together with theorems settling the specification claims.

Machine reals of the source (Python floats) are modelled by `ℚ`;
`round(x, n)` of Python rounds half to even, which `roundHalfEven`
reproduces exactly.
-/

namespace Hecvat

/-- Round a rational to the nearest integer, ties going to the even
integer: the behaviour of Python `round` on floats (banker's rounding). -/
def roundHalfEven (q : ℚ) : ℤ :=
  if q - (⌊q⌋ : ℚ) < 1/2 then ⌊q⌋
  else if 1/2 < q - (⌊q⌋ : ℚ) then ⌊q⌋ + 1
  else if ⌊q⌋ % 2 = 0 then ⌊q⌋ else ⌊q⌋ + 1

/-- Python `round(x, 1)` over `ℚ`. -/
def round1 (q : ℚ) : ℚ := (roundHalfEven (q * 10) : ℚ) / 10

/-- Python `round(x, 2)` over `ℚ`. -/
def round2 (q : ℚ) : ℚ := (roundHalfEven (q * 100) : ℚ) / 100

/-- Rounding as the specification words it: round half away from zero,
to one decimal.  Stated only to compare with the source's rounding. -/
def specRoundHalfAwayFromZero1 (q : ℚ) : ℚ :=
  (if 0 ≤ q * 10 then (⌊q * 10 + 1/2⌋ : ℚ)
   else -(⌊-(q * 10) + 1/2⌋ : ℚ)) / 10

/-- Python `str.strip()`. -/
def trimS (s : String) : String :=
  ⟨((s.data.dropWhile Char.isWhitespace).reverse.dropWhile Char.isWhitespace).reverse⟩

/-- The part of an id before its last dash, when a dash exists:
`qid.rsplit("-", 1)[0]`. -/
def beforeLastDash : List Char → Option (List Char)
  | [] => none
  | c :: cs =>
    match beforeLastDash cs with
    | some p => some (c :: p)
    | none => if c = '-' then some [] else none

/-- Category of a question id as the aggregator and the delta engine
derive it: `qid.rsplit("-", 1)[0] if "-" in qid else qid`
(generate_summary.py line 87, generate_delta.py line 93). -/
def categoryOf (qid : String) : String :=
  match beforeLastDash qid.data with
  | some p => ⟨p⟩
  | none => qid

/-- `qid.split("-")[0]`: the segment before the first dash
(parse_hecvat.py line 86). -/
def splitHead (qid : String) : String :=
  ⟨qid.data.takeWhile (fun c => c ≠ '-')⟩

/-- One answer record of an assessment JSON: the fields the scoring
logic consults.  Absent JSON fields are `none`. -/
structure AnswerRec where
  answer : Option String
  fix_type : Option String
  evidence_quality : Option String
deriving DecidableEq

/-- The trimmed answer string, with a missing answer read as `""`:
`ans.get("answer", "").strip()`. -/
def ansTrim (ans : AnswerRec) : String := trimS (ans.answer.getD "")

/-- Per-category tally built by `analyze_assessment`
(generate_summary.py lines 78-102). -/
structure CatStats where
  yes : ℕ
  no : ℕ
  na : ℕ
  blank : ℕ
  gaps : List String
  fix_types : List (String × ℕ)
deriving DecidableEq

/-- The fresh tally a `defaultdict` entry starts from. -/
def blankStats : CatStats := ⟨0, 0, 0, 0, [], []⟩

/-- Update an association list at a key, creating the entry from a
default (appended at the end, as a Python `defaultdict` does) when it
is missing. -/
def updateAssoc {α : Type} (dflt : α) :
    List (String × α) → String → (α → α) → List (String × α)
  | [], k, f => [(k, f dflt)]
  | (k', v) :: rest, k, f =>
    if k' = k then (k', f v) :: rest else (k', v) :: updateAssoc dflt rest k f

/-- Increment a `defaultdict(int)` histogram at a key. -/
def histIncr (h : List (String × ℕ)) (k : String) : List (String × ℕ) :=
  updateAssoc 0 h k (fun n => n + 1)

/-- Classify one answer into a category tally
(generate_summary.py lines 89-100). -/
def tallyAnswer (s : CatStats) (qid : String) (ans : AnswerRec) : CatStats :=
  let answer := ansTrim ans
  if answer = "Yes" then { s with yes := s.yes + 1 }
  else if answer = "No" then
    { s with no := s.no + 1, gaps := s.gaps ++ [qid],
             fix_types := histIncr s.fix_types (ans.fix_type.getD "unknown") }
  else if answer = "N/A" ∨ answer = "NA" then { s with na := s.na + 1 }
  else { s with blank := s.blank + 1 }

/-- The aggregation loop of `analyze_assessment`, threading the
category map through the answers in input order. -/
def analyzeLoop :
    List (String × AnswerRec) → List (String × CatStats) → List (String × CatStats)
  | [], m => m
  | (qid, ans) :: rest, m =>
    analyzeLoop rest (updateAssoc blankStats m (categoryOf qid)
      (fun s => tallyAnswer s qid ans))

/-- `analyze_assessment` (generate_summary.py lines 78-102): answers are
the `answers` mapping in its iteration order. -/
def analyze_assessment (answers : List (String × AnswerRec)) : List (String × CatStats) :=
  analyzeLoop answers []

/-- Result record of `compute_scores`. -/
structure Scores where
  raw_yes : ℕ
  raw_assessed : ℕ
  raw_pct : ℚ
  weighted_score : ℚ
  weighted_num : ℚ
  weighted_den : ℚ
deriving DecidableEq

/-- `m.get(k, dflt)` on an association list. -/
def lookupD {α : Type} (m : List (String × α)) (k : String) (dflt : α) : α :=
  match m.lookup k with
  | some v => v
  | none => dflt

/-- The accumulation loop of `compute_scores`
(generate_summary.py lines 112-123): accumulator is
`(total_yes, total_assessed, weighted_num, weighted_den)`. -/
def scoresLoop (weights : List (String × ℚ)) :
    List (String × CatStats) → ℕ × ℕ × ℚ × ℚ → ℕ × ℕ × ℚ × ℚ
  | [], acc => acc
  | (cat, s) :: rest, (ty, ta, wn, wd) =>
    let assessed := s.yes + s.no
    if assessed = 0 then scoresLoop weights rest (ty, ta, wn, wd)
    else
      let w := lookupD weights cat 0
      if 0 < w then
        scoresLoop weights rest
          (ty + s.yes, ta + assessed,
           wn + (s.yes : ℚ) / (assessed : ℚ) * w, wd + w)
      else scoresLoop weights rest (ty + s.yes, ta + assessed, wn, wd)

/-- `compute_scores` (generate_summary.py lines 105-135). -/
def compute_scores (category_stats : List (String × CatStats))
    (weights : List (String × ℚ)) : Scores :=
  let acc := scoresLoop weights category_stats (0, 0, 0, 0)
  let raw_pct : ℚ := if 0 < acc.2.1 then (acc.1 : ℚ) / (acc.2.1 : ℚ) * 100 else 0
  let weighted_score : ℚ := if 0 < acc.2.2.2 then acc.2.2.1 / acc.2.2.2 * 100 else 0
  { raw_yes := acc.1, raw_assessed := acc.2.1,
    raw_pct := round1 raw_pct, weighted_score := round1 weighted_score,
    weighted_num := round2 acc.2.2.1, weighted_den := round2 acc.2.2.2 }

/-- `quality_map.get(eq, 0.5)` (generate_summary.py line 141). -/
def qualityMap (q : String) : ℚ :=
  if q = "Strong" then 1
  else if q = "Moderate" then 3/4
  else if q = "Weak" then 1/2
  else if q = "Inferred" then 1/4
  else 1/2

/-- Python truthiness of the `evidence_quality` field: present and
non-empty. -/
def eqTruthy (ans : AnswerRec) : Bool :=
  match ans.evidence_quality with
  | some s => s != ""
  | none => false

/-- The loop of `compute_confidence_adjusted_score`
(generate_summary.py lines 147-158): accumulator is
`(has_quality, total_quality, assessed_count)`. -/
def ccasLoop : List (String × AnswerRec) → Bool × ℚ × ℕ → Bool × ℚ × ℕ
  | [], acc => acc
  | (_, ans) :: rest, (hq, tq, ac) =>
    let answer := ansTrim ans
    if answer = "Yes" ∨ answer = "No" then
      if eqTruthy ans then
        ccasLoop rest
          (true,
           (if answer = "Yes" then tq + qualityMap (ans.evidence_quality.getD "") else tq),
           ac + 1)
      else
        ccasLoop rest (hq, (if answer = "Yes" then tq + 1 else tq), ac + 1)
    else ccasLoop rest (hq, tq, ac)

/-- `compute_confidence_adjusted_score` (generate_summary.py
lines 138-163); `-1` is the no-data sentinel. -/
def compute_confidence_adjusted_score (assessment : List (String × AnswerRec))
    (weights : List (String × ℚ)) : ℚ :=
  let acc := ccasLoop assessment (false, 0, 0)
  if acc.1 = false ∨ acc.2.2 = 0 then -1
  else round1 (acc.2.1 / (acc.2.2 : ℚ) * 100)

/-- Contribution of one assessed answer to `total_quality` in
`compute_confidence_adjusted_score`. -/
def contribOf (ans : AnswerRec) : ℚ :=
  if ansTrim ans = "Yes" then
    (if eqTruthy ans then qualityMap (ans.evidence_quality.getD "") else 1)
  else 0

/-- An answer the confidence score counts: trimmed value exactly
`"Yes"` or `"No"`. -/
def assessedB (p : String × AnswerRec) : Bool :=
  decide (ansTrim p.2 = "Yes" ∨ ansTrim p.2 = "No")

/-- `REPO_ASSESSABLE_PREFIXES` (parse_hecvat.py lines 37-50). -/
def repoAssessableCatSet : List String :=
  ["AAAI", "APPL", "CHNG", "DATA", "VULN", "ITAC",
   "AIML", "AILM", "AISC", "AIGN", "AIQU", "DPAI"]

/-- `REPO_ASSESSABLE_IDS` (parse_hecvat.py lines 53-65). -/
def repoAssessableIdSet : List String :=
  ["DOCU-05",
   "DCTR-01", "DCTR-02", "DCTR-03",
   "OPEM-01", "OPEM-02",
   "DRPV-01", "DRPV-02",
   "CONS-01", "CONS-02",
   "THRD-01", "THRD-02", "THRD-03",
   "PCID-01", "PCID-02",
   "HIPA-01", "HIPA-02", "HIPA-03",
   "FIDP-01", "FIDP-02", "FIDP-03",
   "PDAT-01", "PDAT-02", "PDAT-03", "PDAT-04",
   "PPPR-01", "PPPR-02", "PPPR-03"]

/-- `NEVER_ASSESSABLE_PREFIXES` (parse_hecvat.py lines 68-78). -/
def neverAssessableCatSet : List String :=
  ["GNRL", "COMP", "REQU", "PCOM", "PRGN", "INTL", "HFIH", "PCHG", "PTHP"]

/-- The repo-assessability decision of parse_hecvat.py lines 86-95,
parameterized by the three sets it consults. -/
def repoAssessableWith (never cats ids : List String) (qid : String) : Bool :=
  let pfx := splitHead qid
  if pfx ∈ never then false
  else if pfx ∈ cats ∨ qid ∈ ids then true
  else false

/-- The `repo_assessable` flag parse_hecvat.py assigns to a question id. -/
def repo_assessable (qid : String) : Bool :=
  repoAssessableWith neverAssessableCatSet repoAssessableCatSet repoAssessableIdSet qid

/-- Result counters of `generate_delta` (generate_delta.py lines 63-87). -/
structure DeltaCounts where
  improvements : List String
  regressions : List String
  newly_assessed : List (String × String)
  unchanged_yes : ℕ
  unchanged_no : ℕ
deriving DecidableEq

/-- `answers.get(qid, {}).get("answer", "").strip()`. -/
def lookupAns (m : List (String × AnswerRec)) (qid : String) : String :=
  match m.lookup qid with
  | some ans => ansTrim ans
  | none => ""

/-- Code-point lexicographic comparison on character lists. -/
def leChars : List Char → List Char → Bool
  | [], _ => true
  | _ :: _, [] => false
  | a :: as, b :: bs => if a < b then true else if b < a then false else leChars as bs

/-- String order used by Python `sorted` on question ids. -/
def leS (s t : String) : Bool := leChars s.data t.data

/-- Insertion into a sorted list of strings. -/
def insertSorted (x : String) : List String → List String
  | [] => [x]
  | y :: ys => if leS x y then x :: y :: ys else y :: insertSorted x ys

/-- `sorted(...)` on a list of strings. -/
def sortStrings (l : List String) : List String := l.foldr insertSorted []

/-- `sorted(set(list(before) + list(after)))` (generate_delta.py line 69). -/
def allQids (before after : List (String × AnswerRec)) : List String :=
  sortStrings ((before.map Prod.fst ++ after.map Prod.fst).dedup)

/-- Classification of one question id given its trimmed before/after
answers (generate_delta.py lines 75-87). -/
def deltaStepCore (acc : DeltaCounts) (qid b a : String) : DeltaCounts :=
  if b = a then
    if a = "Yes" then { acc with unchanged_yes := acc.unchanged_yes + 1 }
    else if a = "No" then { acc with unchanged_no := acc.unchanged_no + 1 }
    else acc
  else if b = "No" ∧ a = "Yes" then
    { acc with improvements := acc.improvements ++ [qid] }
  else if b = "Yes" ∧ a = "No" then
    { acc with regressions := acc.regressions ++ [qid] }
  else if (b = "" ∨ b = "N/A") ∧ (a = "Yes" ∨ a = "No") then
    { acc with newly_assessed := acc.newly_assessed ++ [(qid, a)] }
  else acc

/-- One iteration of the delta classification loop. -/
def deltaStep (before after : List (String × AnswerRec))
    (acc : DeltaCounts) (qid : String) : DeltaCounts :=
  deltaStepCore acc qid (lookupAns before qid) (lookupAns after qid)

/-- The delta classification loop over the sorted union of ids. -/
def deltaLoop (before after : List (String × AnswerRec)) :
    List String → DeltaCounts → DeltaCounts
  | [], acc => acc
  | q :: rest, acc => deltaLoop before after rest (deltaStep before after acc q)

/-- The classification portion of `generate_delta`
(generate_delta.py lines 63-87). -/
def generate_delta_counts (before after : List (String × AnswerRec)) : DeltaCounts :=
  deltaLoop before after (allQids before after) ⟨[], [], [], 0, 0⟩

/-- Per-category before/after counters of `generate_delta`
(generate_delta.py lines 90-104). -/
structure CatDelta where
  before_yes : ℕ
  before_total : ℕ
  after_yes : ℕ
  after_total : ℕ
deriving DecidableEq

/-- The fresh counter a `defaultdict` entry starts from. -/
def zeroCatDelta : CatDelta := ⟨0, 0, 0, 0⟩

/-- Account one question id into its category's before/after counters. -/
def catDeltaTally (d : CatDelta) (b a : String) : CatDelta :=
  let d :=
    if b = "Yes" ∨ b = "No" then
      { d with before_total := d.before_total + 1,
               before_yes := d.before_yes + (if b = "Yes" then 1 else 0) }
    else d
  if a = "Yes" ∨ a = "No" then
    { d with after_total := d.after_total + 1,
             after_yes := d.after_yes + (if a = "Yes" then 1 else 0) }
  else d

/-- The category-counter loop of `generate_delta`
(generate_delta.py lines 92-104). -/
def catDeltaLoop (before after : List (String × AnswerRec)) :
    List String → List (String × CatDelta) → List (String × CatDelta)
  | [], m => m
  | q :: rest, m =>
    catDeltaLoop before after rest
      (updateAssoc zeroCatDelta m (categoryOf q)
        (fun d => catDeltaTally d (lookupAns before q) (lookupAns after q)))

/-- `cat_deltas` of `generate_delta` after its counting loop. -/
def cat_deltas (before after : List (String × AnswerRec)) : List (String × CatDelta) :=
  catDeltaLoop before after (allQids before after) []

/-- A percentage cell of the category table: rounded to one decimal,
`0` when the denominator is `0` (generate_delta.py lines 164-165). -/
def pctOf (yes total : ℕ) : ℚ :=
  if 0 < total then round1 ((yes : ℚ) / (total : ℚ) * 100) else 0

/-- Insertion into a key-sorted association list. -/
def insertPair {α : Type} (x : String × α) :
    List (String × α) → List (String × α)
  | [] => [x]
  | y :: ys => if leS x.1 y.1 then x :: y :: ys else y :: insertPair x ys

/-- Sort an association list by key, as `for cat in sorted(d.keys())`
iterates a dict with unique keys. -/
def sortPairs {α : Type} (l : List (String × α)) : List (String × α) :=
  l.foldr insertPair []

/-- The rows of the emitted Category Score Deltas table:
`(category, before_pct, after_pct, delta)` for the categories whose
rounded delta is non-zero (generate_delta.py lines 154-168). -/
def delta_rows (before after : List (String × AnswerRec)) :
    List (String × ℚ × ℚ × ℚ) :=
  let cwc := (cat_deltas before after).filter
    (fun p => decide (0 < p.2.before_total ∨ 0 < p.2.after_total))
  (sortPairs cwc).filterMap (fun p =>
    let b_pct := pctOf p.2.before_yes p.2.before_total
    let a_pct := pctOf p.2.after_yes p.2.after_total
    let dl := round1 (a_pct - b_pct)
    if dl ≠ 0 then some (p.1, b_pct, a_pct, dl) else none)

/-- The tally of a category in an aggregation result, a fresh tally
when the category never occurred. -/
def statsAt (m : List (String × CatStats)) (c : String) : CatStats :=
  lookupD m c blankStats

/-- Histogram count at a key, `0` when absent. -/
def histAt (h : List (String × ℕ)) (k : String) : ℕ := lookupD h k 0

/-- Folding `tallyAnswer` over a run of answers. -/
def tallyList : CatStats → List (String × AnswerRec) → CatStats
  | s, [] => s
  | s, p :: rest => tallyList (tallyAnswer s p.1 p.2) rest

/-- The counter of a category in `cat_deltas`, zero when absent. -/
def catDeltaAt (m : List (String × CatDelta)) (c : String) : CatDelta :=
  lookupD m c zeroCatDelta

/-- Folding `catDeltaTally` over a run of question ids. -/
def catTallyList (before after : List (String × AnswerRec)) :
    CatDelta → List String → CatDelta
  | d, [] => d
  | d, q :: rest =>
    catTallyList before after
      (catDeltaTally d (lookupAns before q) (lookupAns after q)) rest

theorem round1_zero : round1 0 = 0 := by
  norm_num [round1, roundHalfEven]

theorem scoresLoop_char (weights : List (String × ℚ)) :
    ∀ (l : List (String × CatStats)) (ty ta : ℕ) (wn wd : ℚ),
      scoresLoop weights l (ty, ta, wn, wd) =
        (ty + ((l.filter (fun p => p.2.yes + p.2.no != 0)).map
            (fun p => p.2.yes)).sum,
         ta + ((l.filter (fun p => p.2.yes + p.2.no != 0)).map
            (fun p => p.2.yes + p.2.no)).sum,
         wn + ((l.filter (fun p =>
              p.2.yes + p.2.no != 0 && decide (0 < lookupD weights p.1 0))).map
            (fun p => (p.2.yes : ℚ) / ((p.2.yes + p.2.no : ℕ) : ℚ) *
              lookupD weights p.1 0)).sum,
         wd + ((l.filter (fun p =>
              p.2.yes + p.2.no != 0 && decide (0 < lookupD weights p.1 0))).map
            (fun p => lookupD weights p.1 0)).sum) := by
  intro l
  induction l with
  | nil => intro ty ta wn wd; simp [scoresLoop]
  | cons hd rest ih =>
    obtain ⟨cat, s⟩ := hd
    intro ty ta wn wd
    by_cases h : s.yes + s.no = 0
    · simp only [scoresLoop, h, if_pos rfl, reduceIte]
      rw [ih]
      simp [List.filter_cons, h]
    · by_cases hw : 0 < lookupD weights cat 0
      · simp only [scoresLoop, if_neg h]
        rw [if_pos hw, ih]
        simp [List.filter_cons, h, hw, add_assoc, Nat.add_assoc]
      · simp only [scoresLoop, if_neg h]
        rw [if_neg hw, ih]
        simp [List.filter_cons, h, hw, add_assoc, Nat.add_assoc]

/-- C1: `compute_scores` sums yes/assessed over the categories with a
positive assessed count, accumulates the weighted numerator and
denominator over those of them with a positive weight, rounds the two
percentages to one decimal, and on the documented example returns
`raw_yes = 3`, `raw_assessed = 4`, `raw_pct = 75.0`,
`weighted_score = 82.5`. -/
theorem compute_scores_spec :
    ∀ (stats : List (String × CatStats)) (weights : List (String × ℚ)),
      ((compute_scores stats weights).raw_yes =
        ((stats.filter (fun p => p.2.yes + p.2.no != 0)).map
          (fun p => p.2.yes)).sum ∧
       (compute_scores stats weights).raw_assessed =
        ((stats.filter (fun p => p.2.yes + p.2.no != 0)).map
          (fun p => p.2.yes + p.2.no)).sum ∧
       (compute_scores stats weights).weighted_num =
        round2 ((stats.filter (fun p =>
            p.2.yes + p.2.no != 0 && decide (0 < lookupD weights p.1 0))).map
          (fun p => (p.2.yes : ℚ) / ((p.2.yes + p.2.no : ℕ) : ℚ) *
            lookupD weights p.1 0)).sum ∧
       (compute_scores stats weights).weighted_den =
        round2 ((stats.filter (fun p =>
            p.2.yes + p.2.no != 0 && decide (0 < lookupD weights p.1 0))).map
          (fun p => lookupD weights p.1 0)).sum ∧
       (compute_scores stats weights).raw_pct =
        round1 (100 * ((((stats.filter (fun p => p.2.yes + p.2.no != 0)).map
            (fun p => p.2.yes)).sum : ℕ) : ℚ) /
          ((((stats.filter (fun p => p.2.yes + p.2.no != 0)).map
            (fun p => p.2.yes + p.2.no)).sum : ℕ) : ℚ)) ∧
       (compute_scores stats weights).weighted_score =
        round1 (100 * ((stats.filter (fun p =>
            p.2.yes + p.2.no != 0 && decide (0 < lookupD weights p.1 0))).map
          (fun p => (p.2.yes : ℚ) / ((p.2.yes + p.2.no : ℕ) : ℚ) *
            lookupD weights p.1 0)).sum /
          ((stats.filter (fun p =>
            p.2.yes + p.2.no != 0 && decide (0 < lookupD weights p.1 0))).map
          (fun p => lookupD weights p.1 0)).sum)) ∧
      compute_scores [("AAAI", ⟨2, 1, 0, 0, [], []⟩), ("APPL", ⟨1, 0, 0, 0, [], []⟩)]
        [("AAAI", 10), ("APPL", 9)] = ⟨3, 4, 75, 165/2, 1567/100, 19⟩ := by
  intro stats weights
  constructor
  · have hloop := scoresLoop_char weights stats 0 0 0 0
    refine ⟨?_, ?_, ?_, ?_, ?_, ?_⟩ <;>
      simp only [compute_scores, hloop, Nat.zero_add, zero_add]
    · rcases Nat.eq_zero_or_pos
        (((stats.filter (fun p => p.2.yes + p.2.no != 0)).map
          (fun p => p.2.yes + p.2.no)).sum) with hA | hA
      · rw [if_neg (by omega), hA]
        norm_num
      · rw [if_pos hA]
        congr 1
        ring
    · rcases eq_or_ne (stats.filter (fun p =>
          p.2.yes + p.2.no != 0 && decide (0 < lookupD weights p.1 0))) [] with hF | hF
      · rw [hF]
        simp
      · have hpos : 0 < ((stats.filter (fun p =>
            p.2.yes + p.2.no != 0 && decide (0 < lookupD weights p.1 0))).map
            (fun p => lookupD weights p.1 0)).sum := by
          apply List.sum_pos
          · intro w hw
            rcases List.mem_map.mp hw with ⟨p, hp, rfl⟩
            have h2 := (Bool.and_eq_true _ _).mp (List.mem_filter.mp hp).2
            exact of_decide_eq_true h2.2
          · simpa using hF
        rw [if_pos hpos]
        congr 1
        ring
  · have l1 : lookupD [("AAAI", (10:ℚ)), ("APPL", (9:ℚ))] "AAAI" 0 = 10 := by decide
    have l2 : lookupD [("AAAI", (10:ℚ)), ("APPL", (9:ℚ))] "APPL" 0 = 9 := by decide
    have hloop2 : scoresLoop [("AAAI", (10:ℚ)), ("APPL", (9:ℚ))]
        [("AAAI", ⟨2, 1, 0, 0, [], []⟩), ("APPL", ⟨1, 0, 0, 0, [], []⟩)] (0, 0, 0, 0) =
        (3, 4, 47/3, 19) := by
      norm_num [scoresLoop, l1, l2]
    simp only [compute_scores, hloop2]
    norm_num [round1, round2, roundHalfEven, Scores.mk.injEq]

/-- C8: percentage computations never divide by zero: an empty tally
mapping yields the all-zero score record, a zero assessed total forces
`raw_pct = 0`, a zero weighted denominator forces `weighted_score = 0`,
and a category percentage with a zero total is `0`. -/
theorem zero_denominator_spec :
    ∀ (stats : List (String × CatStats)) (weights : List (String × ℚ)),
      compute_scores [] weights = ⟨0, 0, 0, 0, 0, 0⟩ ∧
      ((compute_scores stats weights).raw_assessed = 0 →
        (compute_scores stats weights).raw_pct = 0) ∧
      ((scoresLoop weights stats (0, 0, 0, 0)).2.2.2 = 0 →
        (compute_scores stats weights).weighted_score = 0) ∧
      (∀ y : ℕ, pctOf y 0 = 0) := by
  intro stats weights
  refine ⟨?_, ?_, ?_, ?_⟩
  · simp only [compute_scores, scoresLoop]
    norm_num [round1, round2, roundHalfEven]
  · intro h
    simp only [compute_scores] at h ⊢
    simp only [h]
    norm_num [round1_zero]
  · intro h
    simp only [compute_scores, h]
    norm_num [round1_zero]
  · intro y
    simp [pctOf]

/-- C10: the confidence-adjusted score never consults its weight-table
argument. -/
theorem confidence_weights_independent :
    ∀ (assessment : List (String × AnswerRec)) (w1 w2 : List (String × ℚ)),
      compute_confidence_adjusted_score assessment w1 =
        compute_confidence_adjusted_score assessment w2 :=
  fun _ _ _ => rfl

/-- C6: never-assessable categories win over both the explicit-ID set
and the assessable-category set; outside them membership in either set
decides assessability; on the concrete sets, "AAAI-01" is assessable
and "GNRL-01" is not. -/
theorem repo_assessable_precedence_spec :
    ∀ (never cats ids : List String) (qid : String),
      (splitHead qid ∈ never → repoAssessableWith never cats ids qid = false) ∧
      (splitHead qid ∉ never →
        (repoAssessableWith never cats ids qid = true ↔
          qid ∈ ids ∨ splitHead qid ∈ cats)) ∧
      repo_assessable "AAAI-01" = true ∧ repo_assessable "GNRL-01" = false := by
  intro never cats ids qid
  refine ⟨?_, ?_, by decide, by decide⟩
  · intro h
    simp [repoAssessableWith, h]
  · intro h
    simp only [repoAssessableWith, if_neg h]
    constructor
    · intro h'
      by_cases hc : splitHead qid ∈ cats ∨ qid ∈ ids
      · tauto
      · rw [if_neg hc] at h'
        exact absurd h' (by simp)
    · intro h'
      rw [if_pos (by tauto)]

theorem zero_denominator_spec_witness :
    (compute_scores [("AAAI", ⟨0, 0, 1, 0, [], []⟩)] [("AAAI", 5)]).raw_pct = 0 ∧
    (compute_scores [("AAAI", ⟨0, 0, 1, 0, [], []⟩)] [("AAAI", 5)]).weighted_score = 0 ∧
    pctOf 3 0 = 0 :=
  ⟨(zero_denominator_spec [("AAAI", ⟨0, 0, 1, 0, [], []⟩)] [("AAAI", 5)]).2.1
      (by decide),
   (zero_denominator_spec [("AAAI", ⟨0, 0, 1, 0, [], []⟩)] [("AAAI", 5)]).2.2.1
      (by decide),
   (zero_denominator_spec [("AAAI", ⟨0, 0, 1, 0, [], []⟩)] [("AAAI", 5)]).2.2.2 3⟩

theorem lookup_cons_self {α : Type} (k : String) (v : α) (tl : List (String × α)) :
    ((k, v) :: tl).lookup k = some v := by
  simp [List.lookup_cons]

theorem lookup_cons_ne {α : Type} {k k' : String} (h : k' ≠ k) (v : α)
    (tl : List (String × α)) :
    ((k, v) :: tl).lookup k' = tl.lookup k' := by
  simp [List.lookup_cons, beq_false_of_ne h]

theorem lookupD_cons_self {α : Type} (k : String) (v : α)
    (tl : List (String × α)) (dflt : α) :
    lookupD ((k, v) :: tl) k dflt = v := by
  simp [lookupD, lookup_cons_self]

theorem lookupD_cons_ne {α : Type} {k k' : String} (h : k' ≠ k) (v : α)
    (tl : List (String × α)) (dflt : α) :
    lookupD ((k, v) :: tl) k' dflt = lookupD tl k' dflt := by
  simp [lookupD, lookup_cons_ne h]

theorem lookup_updateAssoc {α : Type} (dflt : α) (f : α → α) :
    ∀ (m : List (String × α)) (k k' : String),
      (updateAssoc dflt m k f).lookup k' =
        if k' = k then some (f (lookupD m k dflt)) else m.lookup k' := by
  intro m
  induction m with
  | nil =>
    intro k k'
    by_cases h : k' = k
    · subst h
      simp [updateAssoc, lookup_cons_self, lookupD]
    · simp [updateAssoc, lookup_cons_ne h, lookupD, h]
  | cons hd tl ih =>
    obtain ⟨k0, v⟩ := hd
    intro k k'
    by_cases h0 : k0 = k
    · subst h0
      simp only [updateAssoc, if_pos rfl]
      by_cases h : k' = k0
      · subst h
        simp [lookup_cons_self, lookupD_cons_self]
      · simp [lookup_cons_ne h, h]
    · simp only [updateAssoc, if_neg h0]
      by_cases h : k' = k0
      · subst h
        rw [lookup_cons_self, if_neg h0, lookup_cons_self]
      · rw [lookup_cons_ne h, ih k k']
        by_cases hk : k' = k
        · rw [if_pos hk, if_pos hk,
            lookupD_cons_ne (fun hc => h0 hc.symm) v tl dflt]
        · rw [if_neg hk, if_neg hk, lookup_cons_ne h]

theorem lookupD_updateAssoc {α : Type} (dflt : α) (f : α → α)
    (m : List (String × α)) (k k' : String) :
    lookupD (updateAssoc dflt m k f) k' dflt =
      if k' = k then f (lookupD m k dflt) else lookupD m k' dflt := by
  by_cases h : k' = k
  · simp [lookupD, lookup_updateAssoc, h]
  · simp only [lookupD, lookup_updateAssoc, if_neg h]

theorem repo_assessable_precedence_spec_witness :
    repoAssessableWith ["AAAI"] ["AAAI"] ["AAAI-01"] "AAAI-01" = false ∧
    repoAssessableWith [] [] ["ZZZZ-09"] "ZZZZ-09" = true :=
  ⟨(repo_assessable_precedence_spec ["AAAI"] ["AAAI"] ["AAAI-01"] "AAAI-01").1
      (by decide),
   ((repo_assessable_precedence_spec [] [] ["ZZZZ-09"] "ZZZZ-09").2.1
      (by decide)).mpr (Or.inl (by decide))⟩

theorem histAt_histIncr (h : List (String × ℕ)) (k0 k : String) :
    histAt (histIncr h k0) k = histAt h k + if k = k0 then 1 else 0 := by
  by_cases hk : k = k0
  · subst hk
    simp [histAt, histIncr, lookupD_updateAssoc]
  · simp [histAt, histIncr, lookupD_updateAssoc, hk]

theorem statsAt_analyzeLoop (c : String) :
    ∀ (l : List (String × AnswerRec)) (m : List (String × CatStats)),
      statsAt (analyzeLoop l m) c =
        tallyList (statsAt m c) (l.filter (fun p => categoryOf p.1 == c)) := by
  intro l
  induction l with
  | nil =>
    intro m
    simp [analyzeLoop, tallyList]
  | cons hd tl ih =>
    obtain ⟨qid, ans⟩ := hd
    intro m
    simp only [analyzeLoop]
    rw [ih]
    by_cases h : categoryOf qid = c
    · rw [List.filter_cons, if_pos (by simp [h]), h]
      have hst : statsAt (updateAssoc blankStats m c
          (fun s => tallyAnswer s qid ans)) c = tallyAnswer (statsAt m c) qid ans := by
        simp [statsAt, lookupD_updateAssoc]
      rw [hst]
      rfl
    · rw [List.filter_cons, if_neg (by simp [h])]
      have hst : statsAt (updateAssoc blankStats m (categoryOf qid)
          (fun s => tallyAnswer s qid ans)) c = statsAt m c := by
        simp only [statsAt, lookupD_updateAssoc]
        rw [if_neg (fun hc => h hc.symm)]
      rw [hst]

theorem tallyList_char :
    ∀ (l : List (String × AnswerRec)) (s : CatStats) (k : String),
      (tallyList s l).yes = s.yes + l.countP (fun p => ansTrim p.2 == "Yes") ∧
      (tallyList s l).no = s.no + l.countP (fun p => ansTrim p.2 == "No") ∧
      (tallyList s l).na = s.na +
        l.countP (fun p => ansTrim p.2 == "N/A" || ansTrim p.2 == "NA") ∧
      (tallyList s l).blank = s.blank +
        l.countP (fun p => !(ansTrim p.2 == "Yes") && !(ansTrim p.2 == "No") &&
          !(ansTrim p.2 == "N/A") && !(ansTrim p.2 == "NA")) ∧
      (tallyList s l).gaps = s.gaps ++
        (l.filter (fun p => ansTrim p.2 == "No")).map Prod.fst ∧
      histAt (tallyList s l).fix_types k = histAt s.fix_types k +
        l.countP (fun p => ansTrim p.2 == "No" &&
          (p.2.fix_type.getD "unknown" == k)) := by
  intro l
  induction l with
  | nil =>
    intro s k
    simp [tallyList]
  | cons hd tl ih =>
    obtain ⟨qid, ans⟩ := hd
    intro s k
    simp only [tallyList]
    obtain ⟨i1, i2, i3, i4, i5, i6⟩ := ih (tallyAnswer s qid ans) k
    rw [i1, i2, i3, i4, i5, i6]
    by_cases h1 : ansTrim ans = "Yes"
    · refine ⟨?_, ?_, ?_, ?_, ?_, ?_⟩ <;>
        simp [tallyAnswer, h1, List.countP_cons, List.filter_cons] <;> omega
    · by_cases h2 : ansTrim ans = "No"
      · refine ⟨?_, ?_, ?_, ?_, ?_, ?_⟩
        · simp [tallyAnswer, h1, h2, List.countP_cons]
        · simp [tallyAnswer, h1, h2, List.countP_cons]
          omega
        · simp [tallyAnswer, h1, h2, List.countP_cons]
        · simp [tallyAnswer, h1, h2, List.countP_cons]
        · simp [tallyAnswer, h1, h2, List.filter_cons]
        · simp [tallyAnswer, h1, h2, List.countP_cons, histAt_histIncr]
          by_cases hk : ans.fix_type.getD "unknown" = k
          · simp [hk]
            omega
          · simp [Ne.symm hk, beq_false_of_ne hk]
            exact hk
      · by_cases h3 : ansTrim ans = "N/A" ∨ ansTrim ans = "NA"
        · refine ⟨?_, ?_, ?_, ?_, ?_, ?_⟩ <;>
            simp only [tallyAnswer, if_neg h1, if_neg h2, if_pos h3] <;>
            rcases h3 with h3 | h3 <;>
            simp [h3, List.countP_cons, List.filter_cons] <;> omega
        · push_neg at h3
          refine ⟨?_, ?_, ?_, ?_, ?_, ?_⟩ <;>
            simp only [tallyAnswer, if_neg h1, if_neg h2, if_neg (by tauto)] <;>
            simp [List.countP_cons, List.filter_cons, h1, h2, h3.1, h3.2,
              beq_false_of_ne h1, beq_false_of_ne h2,
              beq_false_of_ne h3.1, beq_false_of_ne h3.2] <;> omega

/-- C2: the aggregator classifies each record's trimmed answer exactly
and case-sensitively: `"Yes"` increments yes; `"No"` increments no,
appends the id to the category's gap list in input order and bumps the
fix-type histogram at the record's fix type (default `"unknown"`);
`"N/A"` or `"NA"` increments na; anything else increments blank. -/
theorem analyze_assessment_spec :
    ∀ (answers : List (String × AnswerRec)) (c k : String),
      (statsAt (analyze_assessment answers) c).yes =
        answers.countP (fun p => ansTrim p.2 == "Yes" && (categoryOf p.1 == c)) ∧
      (statsAt (analyze_assessment answers) c).no =
        answers.countP (fun p => ansTrim p.2 == "No" && (categoryOf p.1 == c)) ∧
      (statsAt (analyze_assessment answers) c).na =
        answers.countP (fun p => (ansTrim p.2 == "N/A" || ansTrim p.2 == "NA") &&
          (categoryOf p.1 == c)) ∧
      (statsAt (analyze_assessment answers) c).blank =
        answers.countP (fun p => (!(ansTrim p.2 == "Yes") && !(ansTrim p.2 == "No") &&
          !(ansTrim p.2 == "N/A") && !(ansTrim p.2 == "NA")) &&
          (categoryOf p.1 == c)) ∧
      (statsAt (analyze_assessment answers) c).gaps =
        (answers.filter (fun p => ansTrim p.2 == "No" && (categoryOf p.1 == c))).map
          Prod.fst ∧
      histAt (statsAt (analyze_assessment answers) c).fix_types k =
        answers.countP (fun p => (ansTrim p.2 == "No" &&
          (p.2.fix_type.getD "unknown" == k)) && (categoryOf p.1 == c)) := by
  intro answers c k
  have h0 := statsAt_analyzeLoop c answers []
  have hblank : statsAt ([] : List (String × CatStats)) c = blankStats := by
    simp [statsAt, lookupD]
  rw [hblank] at h0
  obtain ⟨i1, i2, i3, i4, i5, i6⟩ :=
    tallyList_char (answers.filter (fun p => categoryOf p.1 == c)) blankStats k
  rw [analyze_assessment, h0, i1, i2, i3, i4, i5, i6]
  simp [blankStats, histAt, lookupD, List.countP_filter, List.filter_filter]

theorem contribOf_nonneg (ans : AnswerRec) : 0 ≤ contribOf ans := by
  unfold contribOf qualityMap
  split_ifs <;> norm_num

theorem roundHalfEven_nonneg {q : ℚ} (h : 0 ≤ q) : 0 ≤ roundHalfEven q := by
  unfold roundHalfEven
  have hf : 0 ≤ ⌊q⌋ := Int.floor_nonneg.mpr h
  split_ifs <;> omega

theorem round1_nonneg {q : ℚ} (h : 0 ≤ q) : 0 ≤ round1 q := by
  unfold round1
  have := roundHalfEven_nonneg (q := q * 10) (by positivity)
  positivity

theorem ccasLoop_char :
    ∀ (l : List (String × AnswerRec)) (hq : Bool) (tq : ℚ) (ac : ℕ),
      ccasLoop l (hq, tq, ac) =
        (hq || (l.filter assessedB).any (fun p => eqTruthy p.2),
         tq + ((l.filter assessedB).map (fun p => contribOf p.2)).sum,
         ac + l.countP assessedB) := by
  intro l
  induction l with
  | nil =>
    intro hq tq ac
    simp [ccasLoop]
  | cons hd rest ih =>
    obtain ⟨qid, ans⟩ := hd
    intro hq tq ac
    by_cases hA : ansTrim ans = "Yes" ∨ ansTrim ans = "No"
    · simp only [ccasLoop, if_pos hA]
      by_cases hE : eqTruthy ans = true
      · rw [if_pos hE, ih]
        have hc : contribOf ans =
            if ansTrim ans = "Yes" then qualityMap (ans.evidence_quality.getD "")
            else 0 := by
          simp [contribOf, hE]
        by_cases hY : ansTrim ans = "Yes"
        · simp [List.filter_cons, List.countP_cons, List.any_cons, assessedB,
            hA, hE, hc, hY, Prod.mk.injEq]
          refine ⟨by ring, by omega⟩
        · have hN : ansTrim ans = "No" := hA.resolve_left hY
          simp [List.filter_cons, List.countP_cons, List.any_cons, assessedB,
            hA, hE, hc, hY, hN, Prod.mk.injEq]
          omega
      · rw [if_neg hE, ih]
        have hE' : eqTruthy ans = false := by
          revert hE
          cases eqTruthy ans <;> simp
        have hc : contribOf ans = if ansTrim ans = "Yes" then 1 else 0 := by
          simp [contribOf, hE']
        by_cases hY : ansTrim ans = "Yes"
        · simp [List.filter_cons, List.countP_cons, List.any_cons, assessedB,
            hA, hE', hc, hY, Prod.mk.injEq]
          refine ⟨by ring, by omega⟩
        · have hN : ansTrim ans = "No" := hA.resolve_left hY
          simp [List.filter_cons, List.countP_cons, List.any_cons, assessedB,
            hA, hE', hc, hY, hN, Prod.mk.injEq]
          omega
    · simp only [ccasLoop, if_neg hA]
      rw [ih]
      simp [List.filter_cons, List.countP_cons, assessedB, hA]

/-- C4 as written is false: the evidence-quality presence check ranges
only over the assessed (Yes/No) answers, not over the whole answer set.
Here the only `evidence_quality` sits on an `"N/A"` answer, one answer
is assessed, and the code still returns the sentinel. -/
theorem confidence_sentinel_global_check_cex :
    compute_confidence_adjusted_score
      [("Q1", ⟨some "N/A", none, some "Strong"⟩),
       ("Q2", ⟨some "Yes", none, none⟩)] [] = -1 ∧
    [("Q1", (⟨some "N/A", none, some "Strong"⟩ : AnswerRec)),
     ("Q2", ⟨some "Yes", none, none⟩)].countP assessedB = 1 ∧
    [("Q1", (⟨some "N/A", none, some "Strong"⟩ : AnswerRec)),
     ("Q2", ⟨some "Yes", none, none⟩)].any (fun p => eqTruthy p.2) = true := by
  refine ⟨by decide, by decide, by decide⟩

/-- C4 (amended): the score is the `NoData` sentinel `-1` exactly when
there is no assessed (Yes/No) answer, or no assessed answer carries a
non-empty `evidence_quality`; the presence check ranges over the
assessed subset only. -/
theorem confidence_sentinel_spec :
    ∀ (answers : List (String × AnswerRec)) (weights : List (String × ℚ)),
      (compute_confidence_adjusted_score answers weights = -1 ↔
        (answers.filter assessedB = [] ∨
         (answers.filter assessedB).any (fun p => eqTruthy p.2) = false)) := by
  intro answers weights
  rw [compute_confidence_adjusted_score, ccasLoop_char answers false 0 0]
  simp only [Bool.false_or, zero_add]
  have hcnt : answers.countP assessedB = (answers.filter assessedB).length :=
    List.countP_eq_length_filter _ _
  constructor
  · intro h
    by_contra hcon
    push_neg at hcon
    obtain ⟨hne, hany⟩ := hcon
    have hany' : (answers.filter assessedB).any (fun p => eqTruthy p.2) = true := by
      revert hany
      cases (answers.filter assessedB).any (fun p => eqTruthy p.2) <;> simp
    rw [if_neg (by
      rw [hcnt]
      simp [hany', List.length_eq_zero, hne])] at h
    have hnonneg : (0:ℚ) ≤
        ((answers.filter assessedB).map (fun p => contribOf p.2)).sum /
          ((answers.countP assessedB : ℕ) : ℚ) * 100 := by
      have hs : (0:ℚ) ≤ ((answers.filter assessedB).map (fun p => contribOf p.2)).sum := by
        apply List.sum_nonneg
        intro x hx
        rcases List.mem_map.mp hx with ⟨p, _, rfl⟩
        exact contribOf_nonneg p.2
      positivity
    have := round1_nonneg hnonneg
    rw [h] at this
    norm_num at this
  · intro h
    rw [if_pos]
    rcases h with h | h
    · right
      rw [hcnt, h]
      rfl
    · left
      exact h

theorem confidence_sentinel_spec_witness :
    compute_confidence_adjusted_score
      [("Q1", ⟨some "N/A", none, some "Strong"⟩),
       ("Q2", ⟨some "Yes", none, none⟩)] [] = -1 :=
  (confidence_sentinel_spec
      [("Q1", ⟨some "N/A", none, some "Strong"⟩),
       ("Q2", ⟨some "Yes", none, none⟩)] []).mpr (Or.inr (by decide))

theorem contribOf_strong_yes : contribOf ⟨some "Yes", none, some "Strong"⟩ = 1 := by
  have h : ansTrim ⟨some "Yes", none, some "Strong"⟩ = "Yes" := by decide
  have he : eqTruthy ⟨some "Yes", none, some "Strong"⟩ = true := by decide
  simp [contribOf, h, he, qualityMap]

theorem contribOf_moderate_yes :
    contribOf ⟨some "Yes", none, some "Moderate"⟩ = 3/4 := by
  have h : ansTrim ⟨some "Yes", none, some "Moderate"⟩ = "Yes" := by decide
  have he : eqTruthy ⟨some "Yes", none, some "Moderate"⟩ = true := by decide
  simp [contribOf, h, he, qualityMap]

theorem contribOf_weak_yes : contribOf ⟨some "Yes", none, some "Weak"⟩ = 1/2 := by
  have h : ansTrim ⟨some "Yes", none, some "Weak"⟩ = "Yes" := by decide
  have he : eqTruthy ⟨some "Yes", none, some "Weak"⟩ = true := by decide
  simp [contribOf, h, he, qualityMap]

theorem contribOf_strong_no : contribOf ⟨some "No", none, some "Strong"⟩ = 0 := by
  have h : ansTrim ⟨some "No", none, some "Strong"⟩ = "No" := by decide
  simp [contribOf, h]

theorem ccas_example_eval :
    ∀ (weights : List (String × ℚ)),
      compute_confidence_adjusted_score
        [("Q1", ⟨some "Yes", none, some "Strong"⟩),
         ("Q2", ⟨some "Yes", none, some "Moderate"⟩),
         ("Q3", ⟨some "Yes", none, some "Weak"⟩),
         ("Q4", ⟨some "No", none, some "Strong"⟩)] weights = 281/5 := by
  intro weights
  rw [compute_confidence_adjusted_score,
    ccasLoop_char _ false 0 0]
  simp only [Bool.false_or, zero_add]
  rw [if_neg (by decide)]
  rw [show List.filter assessedB
      [("Q1", (⟨some "Yes", none, some "Strong"⟩ : AnswerRec)),
       ("Q2", ⟨some "Yes", none, some "Moderate"⟩),
       ("Q3", ⟨some "Yes", none, some "Weak"⟩),
       ("Q4", ⟨some "No", none, some "Strong"⟩)] =
      [("Q1", (⟨some "Yes", none, some "Strong"⟩ : AnswerRec)),
       ("Q2", ⟨some "Yes", none, some "Moderate"⟩),
       ("Q3", ⟨some "Yes", none, some "Weak"⟩),
       ("Q4", ⟨some "No", none, some "Strong"⟩)] from by decide]
  rw [show List.countP assessedB
      [("Q1", (⟨some "Yes", none, some "Strong"⟩ : AnswerRec)),
       ("Q2", ⟨some "Yes", none, some "Moderate"⟩),
       ("Q3", ⟨some "Yes", none, some "Weak"⟩),
       ("Q4", ⟨some "No", none, some "Strong"⟩)] = 4 from by decide]
  simp only [List.map_cons, List.map_nil, contribOf_strong_yes,
    contribOf_moderate_yes, contribOf_weak_yes, contribOf_strong_no,
    List.sum_cons, List.sum_nil]
  norm_num [round1, roundHalfEven]

/-- C5 as written is false in its rounding clause: the code rounds the
example's intermediate 56.25 half-to-even down to 56.2, while the
claimed round-half-away-from-zero convention would give 56.3; moreover
an `evidence_quality` sitting outside the assessed subset does not
prevent the sentinel, so the stated hypothesis does not suffice for the
formula. -/
theorem confidence_rounding_cex :
    compute_confidence_adjusted_score
      [("Q1", ⟨some "Yes", none, some "Strong"⟩),
       ("Q2", ⟨some "Yes", none, some "Moderate"⟩),
       ("Q3", ⟨some "Yes", none, some "Weak"⟩),
       ("Q4", ⟨some "No", none, some "Strong"⟩)] [] = 281/5 ∧
    specRoundHalfAwayFromZero1 (225/4) = 563/10 ∧
    ((281 : ℚ)/5) ≠ 563/10 ∧
    compute_confidence_adjusted_score
      [("Q1", ⟨some "N/A", none, some "Strong"⟩),
       ("Q2", ⟨some "Yes", none, none⟩)] [] = -1 ∧
    ((-1 : ℚ)) ≠ round1 (100 * 1 / 1) := by
  refine ⟨ccas_example_eval [], ?_, by norm_num, by decide, ?_⟩
  · norm_num [specRoundHalfAwayFromZero1]
  · norm_num [round1, roundHalfEven]

/-- C5 (amended): whenever at least one assessed (Yes/No) answer
carries a non-empty `evidence_quality` and the assessed count is
positive, the score is 100 times the sum of contributions (Yes with
quality Strong 1.0, Moderate 0.75, Weak 0.5, Inferred 0.25,
unrecognized 0.5; Yes without quality 1.0; No 0) divided by the
assessed count, rounded to one decimal with ties to even (Python
`round`); the documented example yields exactly 56.2. -/
theorem confidence_score_spec :
    ∀ (answers : List (String × AnswerRec)) (weights : List (String × ℚ)),
      ((answers.filter assessedB).any (fun p => eqTruthy p.2) = true →
       answers.countP assessedB ≠ 0 →
       compute_confidence_adjusted_score answers weights =
         round1 (100 * ((answers.filter assessedB).map
             (fun p => contribOf p.2)).sum /
           ((answers.countP assessedB : ℕ) : ℚ))) ∧
      compute_confidence_adjusted_score
        [("Q1", ⟨some "Yes", none, some "Strong"⟩),
         ("Q2", ⟨some "Yes", none, some "Moderate"⟩),
         ("Q3", ⟨some "Yes", none, some "Weak"⟩),
         ("Q4", ⟨some "No", none, some "Strong"⟩)] weights = 281/5 := by
  intro answers weights
  refine ⟨?_, ccas_example_eval weights⟩
  intro hany hcnt
  rw [compute_confidence_adjusted_score, ccasLoop_char answers false 0 0]
  simp only [Bool.false_or, zero_add]
  rw [if_neg (by simp [hany, hcnt])]
  congr 1
  ring

theorem confidence_score_spec_witness :
    ([("Q1", (⟨some "Yes", none, some "Strong"⟩ : AnswerRec)),
      ("Q2", ⟨some "Yes", none, some "Moderate"⟩),
      ("Q3", ⟨some "Yes", none, some "Weak"⟩),
      ("Q4", ⟨some "No", none, some "Strong"⟩)].filter assessedB).any
      (fun p => eqTruthy p.2) = true ∧
    [("Q1", (⟨some "Yes", none, some "Strong"⟩ : AnswerRec)),
     ("Q2", ⟨some "Yes", none, some "Moderate"⟩),
     ("Q3", ⟨some "Yes", none, some "Weak"⟩),
     ("Q4", ⟨some "No", none, some "Strong"⟩)].countP assessedB ≠ 0 ∧
    compute_confidence_adjusted_score
      [("Q1", ⟨some "Yes", none, some "Strong"⟩),
       ("Q2", ⟨some "Yes", none, some "Moderate"⟩),
       ("Q3", ⟨some "Yes", none, some "Weak"⟩),
       ("Q4", ⟨some "No", none, some "Strong"⟩)] [] =
      round1 (100 * (([("Q1", (⟨some "Yes", none, some "Strong"⟩ : AnswerRec)),
          ("Q2", ⟨some "Yes", none, some "Moderate"⟩),
          ("Q3", ⟨some "Yes", none, some "Weak"⟩),
          ("Q4", ⟨some "No", none, some "Strong"⟩)].filter assessedB).map
            (fun p => contribOf p.2)).sum /
        (([("Q1", (⟨some "Yes", none, some "Strong"⟩ : AnswerRec)),
           ("Q2", ⟨some "Yes", none, some "Moderate"⟩),
           ("Q3", ⟨some "Yes", none, some "Weak"⟩),
           ("Q4", ⟨some "No", none, some "Strong"⟩)].countP assessedB : ℕ) : ℚ)) :=
  ⟨by decide, by decide,
   (confidence_score_spec
      [("Q1", ⟨some "Yes", none, some "Strong"⟩),
       ("Q2", ⟨some "Yes", none, some "Moderate"⟩),
       ("Q3", ⟨some "Yes", none, some "Weak"⟩),
       ("Q4", ⟨some "No", none, some "Strong"⟩)] []).1 (by decide) (by decide)⟩

theorem deltaStepCore_char (acc : DeltaCounts) (qid b a : String) :
    deltaStepCore acc qid b a =
      ⟨acc.improvements ++ (if b = "No" ∧ a = "Yes" then [qid] else []),
       acc.regressions ++ (if b = "Yes" ∧ a = "No" then [qid] else []),
       acc.newly_assessed ++ (if (b = "" ∨ b = "N/A") ∧ (a = "Yes" ∨ a = "No")
         then [(qid, a)] else []),
       acc.unchanged_yes + (if b = "Yes" ∧ a = "Yes" then 1 else 0),
       acc.unchanged_no + (if b = "No" ∧ a = "No" then 1 else 0)⟩ := by
  unfold deltaStepCore
  split_ifs <;> simp_all

theorem deltaLoop_char (before after : List (String × AnswerRec)) :
    ∀ (qids : List String) (acc : DeltaCounts),
      deltaLoop before after qids acc =
        ⟨acc.improvements ++ qids.filter (fun q =>
            lookupAns before q == "No" && (lookupAns after q == "Yes")),
         acc.regressions ++ qids.filter (fun q =>
            lookupAns before q == "Yes" && (lookupAns after q == "No")),
         acc.newly_assessed ++ (qids.filter (fun q =>
            (lookupAns before q == "" || lookupAns before q == "N/A") &&
            (lookupAns after q == "Yes" || lookupAns after q == "No"))).map
            (fun q => (q, lookupAns after q)),
         acc.unchanged_yes + qids.countP (fun q =>
            lookupAns before q == "Yes" && (lookupAns after q == "Yes")),
         acc.unchanged_no + qids.countP (fun q =>
            lookupAns before q == "No" && (lookupAns after q == "No"))⟩ := by
  intro qids
  induction qids with
  | nil =>
    intro acc
    simp [deltaLoop]
  | cons q rest ih =>
    intro acc
    simp only [deltaLoop, deltaStep, deltaStepCore_char]
    rw [ih]
    dsimp only
    rw [DeltaCounts.mk.injEq]
    refine ⟨?_, ?_, ?_, ?_, ?_⟩
    · rw [List.append_assoc]
      congr 1
      rw [List.filter_cons]
      by_cases h : lookupAns before q = "No" ∧ lookupAns after q = "Yes"
      · rw [if_pos h, if_pos (by simp [h.1, h.2])]
        simp
      · rw [if_neg h, if_neg (by simp [Bool.and_eq_true, beq_iff_eq]; tauto)]
        simp
    · rw [List.append_assoc]
      congr 1
      rw [List.filter_cons]
      by_cases h : lookupAns before q = "Yes" ∧ lookupAns after q = "No"
      · rw [if_pos h, if_pos (by simp [h.1, h.2])]
        simp
      · rw [if_neg h, if_neg (by simp [Bool.and_eq_true, beq_iff_eq]; tauto)]
        simp
    · rw [List.append_assoc]
      congr 1
      rw [List.filter_cons]
      by_cases h : (lookupAns before q = "" ∨ lookupAns before q = "N/A") ∧
          (lookupAns after q = "Yes" ∨ lookupAns after q = "No")
      · rw [if_pos h, if_pos (by
          simp only [Bool.and_eq_true, Bool.or_eq_true, beq_iff_eq]
          tauto)]
        simp
      · rw [if_neg h, if_neg (by
          simp only [Bool.and_eq_true, Bool.or_eq_true, beq_iff_eq]
          tauto)]
        simp
    · rw [List.countP_cons]
      by_cases h : lookupAns before q = "Yes" ∧ lookupAns after q = "Yes"
      · rw [if_pos h, if_pos (by simp [h.1, h.2])]
        omega
      · rw [if_neg h, if_neg (by simp [Bool.and_eq_true, beq_iff_eq]; tauto)]
        omega
    · rw [List.countP_cons]
      by_cases h : lookupAns before q = "No" ∧ lookupAns after q = "No"
      · rw [if_pos h, if_pos (by simp [h.1, h.2])]
        omega
      · rw [if_neg h, if_neg (by simp [Bool.and_eq_true, beq_iff_eq]; tauto)]
        omega

/-- C3: the delta engine classifies each id of the sorted union by its
trimmed before/after answers (missing answers read as `""`): equal
values count unchanged-yes for `"Yes"` and unchanged-no for `"No"`;
`"No"`→`"Yes"` is improved; `"Yes"`→`"No"` is regressed; a before value
in {`""`, `"N/A"`} with an after value in {`"Yes"`, `"No"`} is newly
assessed; bare `"NA"` before `"Yes"` is NOT newly assessed; everything
else is ignored. -/
theorem generate_delta_transitions_spec :
    ∀ (before after : List (String × AnswerRec)),
      generate_delta_counts before after =
        ⟨(allQids before after).filter (fun q =>
            lookupAns before q == "No" && (lookupAns after q == "Yes")),
         (allQids before after).filter (fun q =>
            lookupAns before q == "Yes" && (lookupAns after q == "No")),
         ((allQids before after).filter (fun q =>
            (lookupAns before q == "" || lookupAns before q == "N/A") &&
            (lookupAns after q == "Yes" || lookupAns after q == "No"))).map
            (fun q => (q, lookupAns after q)),
         (allQids before after).countP (fun q =>
            lookupAns before q == "Yes" && (lookupAns after q == "Yes")),
         (allQids before after).countP (fun q =>
            lookupAns before q == "No" && (lookupAns after q == "No"))⟩ ∧
      generate_delta_counts [] [("Q", ⟨some "Yes", none, none⟩)] =
        ⟨[], [], [("Q", "Yes")], 0, 0⟩ ∧
      generate_delta_counts [("Q", ⟨some "NA", none, none⟩)]
        [("Q", ⟨some "Yes", none, none⟩)] = ⟨[], [], [], 0, 0⟩ := by
  intro before after
  refine ⟨?_, by decide, by decide⟩
  rw [generate_delta_counts, deltaLoop_char]
  simp

theorem beforeLastDash_none_iff :
    ∀ (cs : List Char), beforeLastDash cs = none ↔ '-' ∉ cs := by
  intro cs
  induction cs with
  | nil => simp [beforeLastDash]
  | cons c cs ih =>
    simp only [beforeLastDash]
    cases h : beforeLastDash cs with
    | some p =>
      have hmem : '-' ∈ cs := by
        by_contra hn
        rw [← ih] at hn
        rw [h] at hn
        exact Option.noConfusion hn
      simp [hmem]
    | none =>
      have hnm : '-' ∉ cs := ih.mp h
      by_cases hc : c = '-'
      · simp [hc]
      · simp [hc, List.mem_cons, hnm, Ne.symm hc]

theorem beforeLastDash_some :
    ∀ (cs p : List Char), beforeLastDash cs = some p →
      ∃ suffix : List Char, '-' ∉ suffix ∧ cs = p ++ '-' :: suffix := by
  intro cs
  induction cs with
  | nil =>
    intro p h
    simp [beforeLastDash] at h
  | cons c cs ih =>
    intro p h
    simp only [beforeLastDash] at h
    cases hb : beforeLastDash cs with
    | some p' =>
      rw [hb] at h
      obtain ⟨suf, hnm, heq⟩ := ih p' hb
      refine ⟨suf, hnm, ?_⟩
      have hp : p = c :: p' := (Option.some.injEq _ _ ▸ h).symm
      rw [hp, heq]
      rfl
    | none =>
      rw [hb] at h
      by_cases hc : c = '-'
      · rw [if_pos hc] at h
        have hp : p = [] := (Option.some.injEq _ _ ▸ h).symm
        exact ⟨cs, (beforeLastDash_none_iff cs).mp hb, by rw [hp, hc]; rfl⟩
      · rw [if_neg hc] at h
        exact Option.noConfusion h

theorem takeWhile_no_dash :
    ∀ (l : List Char), '-' ∉ l → l.takeWhile (fun c => c ≠ '-') = l := by
  intro l
  induction l with
  | nil => intro _; rfl
  | cons c cs ih =>
    intro h
    have hc : c ≠ '-' := fun hc => h (hc ▸ List.mem_cons_self c cs)
    have hcs : '-' ∉ cs := fun hm => h (List.mem_cons_of_mem c hm)
    rw [List.takeWhile_cons, if_pos (by simp [hc]), ih hcs]

theorem takeWhile_until_dash :
    ∀ (p suf : List Char), '-' ∉ p →
      (p ++ '-' :: suf).takeWhile (fun c => c ≠ '-') = p := by
  intro p
  induction p with
  | nil =>
    intro suf _
    simp [List.takeWhile_cons]
  | cons c cs ih =>
    intro suf h
    have hc : c ≠ '-' := fun hc => h (hc ▸ List.mem_cons_self c cs)
    have hcs : '-' ∉ cs := fun hm => h (List.mem_cons_of_mem c hm)
    rw [List.cons_append, List.takeWhile_cons, if_pos (by simp [hc]), ih suf hcs]

/-- C9 as written is false: the aggregator and the delta engine derive
the category as the segment before the LAST dash (`rsplit`), not before
the first one (`split`), and the two differ on an id with two dashes. -/
theorem category_split_cex :
    categoryOf "AISC-01-b" = "AISC-01" ∧ splitHead "AISC-01-b" = "AISC" ∧
    categoryOf "AISC-01-b" ≠ splitHead "AISC-01-b" := by
  refine ⟨by decide, by decide, by decide⟩

/-- C9 (amended): the derived category is the segment before the last
dash (the whole id when it has no dash), i.e. `id.rsplit("-", 1)[0]`;
it agrees with `id.split("-")[0]` exactly on ids with at most one
dash. -/
theorem category_rsplit_spec :
    ∀ (qid : String),
      ('-' ∉ qid.data → categoryOf qid = qid) ∧
      ('-' ∈ qid.data → ∃ suffix : List Char, '-' ∉ suffix ∧
        qid.data = (categoryOf qid).data ++ '-' :: suffix) ∧
      (qid.data.count '-' ≤ 1 → categoryOf qid = splitHead qid) := by
  intro qid
  refine ⟨?_, ?_, ?_⟩
  · intro h
    simp [categoryOf, (beforeLastDash_none_iff qid.data).mpr h]
  · intro h
    cases hb : beforeLastDash qid.data with
    | none => exact absurd h ((beforeLastDash_none_iff _).mp hb)
    | some p =>
      obtain ⟨suf, h1, h2⟩ := beforeLastDash_some _ p hb
      refine ⟨suf, h1, ?_⟩
      have hcq : categoryOf qid = ⟨p⟩ := by simp [categoryOf, hb]
      rw [hcq]
      exact h2
  · intro hcount
    by_cases h : '-' ∈ qid.data
    · cases hb : beforeLastDash qid.data with
      | none => exact absurd h ((beforeLastDash_none_iff _).mp hb)
      | some p =>
        obtain ⟨suf, hns, heq⟩ := beforeLastDash_some _ p hb
        have hp : '-' ∉ p := by
          intro hmem
          have h2 : 2 ≤ qid.data.count '-' := by
            rw [heq, List.count_append, List.count_cons]
            have hpos : 0 < p.count '-' := List.count_pos_iff.mpr hmem
            simp only [beq_self_eq_true, if_true]
            omega
          omega
        have htw : qid.data.takeWhile (fun c => c ≠ '-') = p := by
          rw [heq]
          exact takeWhile_until_dash p suf hp
        have hcq : categoryOf qid = ⟨p⟩ := by simp [categoryOf, hb]
        have hsh : splitHead qid = ⟨p⟩ := by
          unfold splitHead
          exact congrArg String.mk htw
        rw [hcq, hsh]
    · have hcat : categoryOf qid = qid := by
        simp [categoryOf, (beforeLastDash_none_iff qid.data).mpr h]
      rw [hcat]
      unfold splitHead
      rw [takeWhile_no_dash qid.data h]

theorem category_rsplit_spec_witness :
    categoryOf "AAAI" = "AAAI" ∧ categoryOf "AAAI-01" = splitHead "AAAI-01" :=
  ⟨(category_rsplit_spec "AAAI").1 (by decide),
   (category_rsplit_spec "AAAI-01").2.2 (by decide)⟩

theorem catDeltaTally_char (d : CatDelta) (b a : String) :
    catDeltaTally d b a =
      ⟨d.before_yes + (if b = "Yes" then 1 else 0),
       d.before_total + (if b = "Yes" ∨ b = "No" then 1 else 0),
       d.after_yes + (if a = "Yes" then 1 else 0),
       d.after_total + (if a = "Yes" ∨ a = "No" then 1 else 0)⟩ := by
  simp only [catDeltaTally]
  split_ifs <;> simp_all

theorem catDeltaAt_catDeltaLoop (before after : List (String × AnswerRec))
    (c : String) :
    ∀ (qids : List String) (m : List (String × CatDelta)),
      catDeltaAt (catDeltaLoop before after qids m) c =
        catTallyList before after (catDeltaAt m c)
          (qids.filter (fun q => categoryOf q == c)) := by
  intro qids
  induction qids with
  | nil =>
    intro m
    simp [catDeltaLoop, catTallyList]
  | cons q rest ih =>
    intro m
    simp only [catDeltaLoop]
    rw [ih]
    by_cases h : categoryOf q = c
    · rw [List.filter_cons, if_pos (by simp [h]), h]
      have hst : catDeltaAt (updateAssoc zeroCatDelta m c
          (fun d => catDeltaTally d (lookupAns before q) (lookupAns after q))) c =
          catDeltaTally (catDeltaAt m c) (lookupAns before q) (lookupAns after q) := by
        simp [catDeltaAt, lookupD_updateAssoc]
      rw [hst]
      rfl
    · rw [List.filter_cons, if_neg (by simp [h])]
      have hst : catDeltaAt (updateAssoc zeroCatDelta m (categoryOf q)
          (fun d => catDeltaTally d (lookupAns before q) (lookupAns after q))) c =
          catDeltaAt m c := by
        simp only [catDeltaAt, lookupD_updateAssoc]
        rw [if_neg (fun hc => h hc.symm)]
      rw [hst]

theorem catTallyList_char (before after : List (String × AnswerRec)) :
    ∀ (qs : List String) (d : CatDelta),
      catTallyList before after d qs =
        ⟨d.before_yes + qs.countP (fun q => lookupAns before q == "Yes"),
         d.before_total + qs.countP (fun q =>
            lookupAns before q == "Yes" || lookupAns before q == "No"),
         d.after_yes + qs.countP (fun q => lookupAns after q == "Yes"),
         d.after_total + qs.countP (fun q =>
            lookupAns after q == "Yes" || lookupAns after q == "No")⟩ := by
  intro qs
  induction qs with
  | nil =>
    intro d
    simp [catTallyList]
  | cons q rest ih =>
    intro d
    simp only [catTallyList, catDeltaTally_char]
    rw [ih]
    dsimp only
    rw [CatDelta.mk.injEq]
    refine ⟨?_, ?_, ?_, ?_⟩ <;>
      rw [List.countP_cons] <;>
      simp only [Bool.or_eq_true, beq_iff_eq] <;>
      split_ifs <;> omega

theorem updateAssoc_keys {α : Type} (dflt : α) (f : α → α) :
    ∀ (m : List (String × α)) (k : String),
      (updateAssoc dflt m k f).map Prod.fst =
        if k ∈ m.map Prod.fst then m.map Prod.fst else m.map Prod.fst ++ [k] := by
  intro m
  induction m with
  | nil =>
    intro k
    simp [updateAssoc]
  | cons hd tl ih =>
    obtain ⟨k0, v⟩ := hd
    intro k
    by_cases h0 : k0 = k
    · subst h0
      simp [updateAssoc]
    · simp only [updateAssoc, if_neg h0, List.map_cons, ih]
      by_cases hk : k ∈ tl.map Prod.fst
      · rw [if_pos hk, if_pos (by simp [hk])]
      · rw [if_neg hk, if_neg (by
          simp only [List.mem_cons, not_or]
          exact ⟨fun hc => h0 hc.symm, hk⟩)]
        rfl

theorem updateAssoc_nodup_keys {α : Type} (dflt : α) (f : α → α)
    (m : List (String × α)) (k : String)
    (h : (m.map Prod.fst).Nodup) :
    ((updateAssoc dflt m k f).map Prod.fst).Nodup := by
  rw [updateAssoc_keys]
  by_cases hk : k ∈ m.map Prod.fst
  · rw [if_pos hk]
    exact h
  · rw [if_neg hk]
    simp [List.nodup_append, h, hk]

theorem catDeltaLoop_nodup_keys (before after : List (String × AnswerRec)) :
    ∀ (qids : List String) (m : List (String × CatDelta)),
      (m.map Prod.fst).Nodup →
      ((catDeltaLoop before after qids m).map Prod.fst).Nodup := by
  intro qids
  induction qids with
  | nil =>
    intro m h
    simpa [catDeltaLoop] using h
  | cons q rest ih =>
    intro m h
    simp only [catDeltaLoop]
    exact ih _ (updateAssoc_nodup_keys _ _ m _ h)

theorem lookup_eq_some_mem {α : Type} :
    ∀ (m : List (String × α)) (k : String) (v : α),
      m.lookup k = some v → (k, v) ∈ m := by
  intro m
  induction m with
  | nil =>
    intro k v h
    simp [List.lookup] at h
  | cons hd tl ih =>
    obtain ⟨k0, v0⟩ := hd
    intro k v h
    by_cases hk : k = k0
    · subst hk
      rw [lookup_cons_self] at h
      simp only [Option.some.injEq] at h
      subst h
      exact List.mem_cons_self _ _
    · rw [lookup_cons_ne hk] at h
      exact List.mem_cons_of_mem _ (ih k v h)

theorem mem_lookup_of_nodup {α : Type} :
    ∀ (m : List (String × α)) (k : String) (v : α),
      (m.map Prod.fst).Nodup → (k, v) ∈ m → m.lookup k = some v := by
  intro m
  induction m with
  | nil =>
    intro k v _ h
    simp at h
  | cons hd tl ih =>
    obtain ⟨k0, v0⟩ := hd
    intro k v hnd hmem
    rcases List.mem_cons.mp hmem with heq | htl
    · have h1 : k = k0 := congrArg Prod.fst heq
      have h2 : v = v0 := congrArg Prod.snd heq
      subst h1
      subst h2
      exact lookup_cons_self _ _ _
    · have hk : k ≠ k0 := by
        intro hc
        subst hc
        have : k ∈ tl.map Prod.fst := List.mem_map.mpr ⟨(k, v), htl, rfl⟩
        simp only [List.map_cons, List.nodup_cons] at hnd
        exact hnd.1 this
      rw [lookup_cons_ne hk]
      exact ih k v (by simp only [List.map_cons, List.nodup_cons] at hnd; exact hnd.2) htl

theorem mem_insertPair {α : Type} (y : String × α) :
    ∀ (l : List (String × α)) (x : String × α),
      x ∈ insertPair y l ↔ x = y ∨ x ∈ l := by
  intro l
  induction l with
  | nil =>
    intro x
    simp [insertPair]
  | cons hd tl ih =>
    intro x
    simp only [insertPair]
    by_cases h : leS y.1 hd.1
    · rw [if_pos h]
      simp [List.mem_cons]
    · rw [if_neg h]
      simp only [List.mem_cons, ih]
      tauto

theorem mem_sortPairs {α : Type} :
    ∀ (l : List (String × α)) (x : String × α),
      x ∈ sortPairs l ↔ x ∈ l := by
  intro l
  induction l with
  | nil =>
    intro x
    simp [sortPairs]
  | cons hd tl ih =>
    intro x
    simp only [sortPairs, List.foldr_cons]
    rw [mem_insertPair]
    simp only [List.mem_cons]
    constructor
    · rintro (h | h)
      · exact Or.inl h
      · exact Or.inr ((ih x).mp h)
    · rintro (h | h)
      · exact Or.inl h
      · exact Or.inr ((ih x).mpr h)

/-- C7 as written is false in its delta formula: the code rounds each
percentage to one decimal before subtracting, so with before 1/3 and
after 2/3 the emitted delta is 33.4, while the difference of the exact
percentages rounded to one decimal is 33.3. -/
theorem delta_pct_rounding_cex :
    delta_rows
      [("X-1", ⟨some "Yes", none, none⟩), ("X-2", ⟨some "No", none, none⟩),
       ("X-3", ⟨some "No", none, none⟩)]
      [("X-1", ⟨some "Yes", none, none⟩), ("X-2", ⟨some "Yes", none, none⟩),
       ("X-3", ⟨some "No", none, none⟩)] =
      [("X", 333/10, 667/10, 167/5)] ∧
    round1 ((100 : ℚ) * 2 / 3 - 100 * 1 / 3) = 333/10 ∧
    ((167 : ℚ)/5) ≠ 333/10 := by
  refine ⟨?_, by norm_num [round1, roundHalfEven], by norm_num⟩
  have h1 : cat_deltas
      [("X-1", ⟨some "Yes", none, none⟩), ("X-2", ⟨some "No", none, none⟩),
       ("X-3", ⟨some "No", none, none⟩)]
      [("X-1", ⟨some "Yes", none, none⟩), ("X-2", ⟨some "Yes", none, none⟩),
       ("X-3", ⟨some "No", none, none⟩)] = [("X", ⟨1, 3, 2, 3⟩)] := by
    decide
  simp only [delta_rows, h1]
  norm_num [sortPairs, insertPair, List.filterMap, pctOf, round1, roundHalfEven]

/-- C7 (amended): in the category table each percentage is computed as
`round1(100*yes/total)` (`0` when the total is `0`), the emitted delta
is `round1(after_pct - before_pct)` of the ROUNDED percentages, rows
with delta `0` are omitted, and every id of the union still counts
toward the per-category totals. -/
theorem delta_rows_spec :
    ∀ (before after : List (String × AnswerRec)) (cat : String) (b a d : ℚ),
      catDeltaAt (cat_deltas before after) cat =
        ⟨(allQids before after).countP (fun q =>
            lookupAns before q == "Yes" && (categoryOf q == cat)),
         (allQids before after).countP (fun q =>
            (lookupAns before q == "Yes" || lookupAns before q == "No") &&
            (categoryOf q == cat)),
         (allQids before after).countP (fun q =>
            lookupAns after q == "Yes" && (categoryOf q == cat)),
         (allQids before after).countP (fun q =>
            (lookupAns after q == "Yes" || lookupAns after q == "No") &&
            (categoryOf q == cat))⟩ ∧
      ((cat, b, a, d) ∈ delta_rows before after ↔
        ((0 < (catDeltaAt (cat_deltas before after) cat).before_total ∨
          0 < (catDeltaAt (cat_deltas before after) cat).after_total) ∧
         b = pctOf (catDeltaAt (cat_deltas before after) cat).before_yes
               (catDeltaAt (cat_deltas before after) cat).before_total ∧
         a = pctOf (catDeltaAt (cat_deltas before after) cat).after_yes
               (catDeltaAt (cat_deltas before after) cat).after_total ∧
         d = round1 (a - b) ∧ d ≠ 0)) := by
  intro before after cat b a d
  constructor
  · rw [cat_deltas, catDeltaAt_catDeltaLoop, catTallyList_char]
    have hz : catDeltaAt ([] : List (String × CatDelta)) cat = zeroCatDelta := by
      simp [catDeltaAt, lookupD]
    rw [hz]
    simp [zeroCatDelta, List.countP_filter]
  · have hnodup : ((cat_deltas before after).map Prod.fst).Nodup :=
      catDeltaLoop_nodup_keys before after (allQids before after) [] (by simp)
    constructor
    · intro hmem
      simp only [delta_rows] at hmem
      rcases List.mem_filterMap.mp hmem with ⟨p, hp, hf⟩
      by_cases hd : round1 (pctOf p.2.after_yes p.2.after_total -
          pctOf p.2.before_yes p.2.before_total) ≠ 0
      · rw [if_pos hd] at hf
        simp only [Option.some.injEq, Prod.mk.injEq] at hf
        obtain ⟨hcat, hbp, hap, hdp⟩ := hf
        have hp' := (mem_sortPairs _ _).mp hp
        have hpc := List.mem_filter.mp hp'
        have hlk : (cat_deltas before after).lookup p.1 = some p.2 :=
          mem_lookup_of_nodup _ _ _ hnodup hpc.1
        have hD : catDeltaAt (cat_deltas before after) p.1 = p.2 := by
          simp [catDeltaAt, lookupD, hlk]
        rw [hcat] at hD
        refine ⟨?_, ?_, ?_, ?_, ?_⟩
        · rw [hD]
          exact of_decide_eq_true hpc.2
        · rw [hD]
          exact hbp.symm
        · rw [hD]
          exact hap.symm
        · rw [← hdp, ← hbp, ← hap]
        · rw [← hdp]
          exact hd
      · rw [if_neg hd] at hf
        exact Option.noConfusion hf
    · rintro ⟨hor, hb, ha, hd, hdne⟩
      cases hlk : (cat_deltas before after).lookup cat with
      | none =>
        exfalso
        have hz : catDeltaAt (cat_deltas before after) cat = zeroCatDelta := by
          simp [catDeltaAt, lookupD, hlk]
        rw [hz] at hor
        simp [zeroCatDelta] at hor
      | some dv =>
        have hD : catDeltaAt (cat_deltas before after) cat = dv := by
          simp [catDeltaAt, lookupD, hlk]
        have hmem : (cat, dv) ∈ cat_deltas before after :=
          lookup_eq_some_mem _ _ _ hlk
        have hcwc : (cat, dv) ∈ (cat_deltas before after).filter
            (fun p => decide (0 < p.2.before_total ∨ 0 < p.2.after_total)) := by
          rw [List.mem_filter]
          refine ⟨hmem, ?_⟩
          rw [hD] at hor
          exact decide_eq_true hor
        simp only [delta_rows]
        apply List.mem_filterMap.mpr
        refine ⟨(cat, dv), (mem_sortPairs _ _).mpr hcwc, ?_⟩
        rw [hD] at hb ha
        have hcond : round1 (pctOf dv.after_yes dv.after_total -
            pctOf dv.before_yes dv.before_total) ≠ 0 := by
          rw [← ha, ← hb, ← hd]
          exact hdne
        rw [if_pos hcond, ← hb, ← ha, ← hd]

theorem delta_rows_spec_witness :
    ("X", (333 : ℚ)/10, (667 : ℚ)/10, (167 : ℚ)/5) ∈ delta_rows
      [("X-1", ⟨some "Yes", none, none⟩), ("X-2", ⟨some "No", none, none⟩),
       ("X-3", ⟨some "No", none, none⟩)]
      [("X-1", ⟨some "Yes", none, none⟩), ("X-2", ⟨some "Yes", none, none⟩),
       ("X-3", ⟨some "No", none, none⟩)] := by
  have hD : catDeltaAt (cat_deltas
      [("X-1", ⟨some "Yes", none, none⟩), ("X-2", ⟨some "No", none, none⟩),
       ("X-3", ⟨some "No", none, none⟩)]
      [("X-1", ⟨some "Yes", none, none⟩), ("X-2", ⟨some "Yes", none, none⟩),
       ("X-3", ⟨some "No", none, none⟩)]) "X" = ⟨1, 3, 2, 3⟩ := by decide
  apply (delta_rows_spec
      [("X-1", ⟨some "Yes", none, none⟩), ("X-2", ⟨some "No", none, none⟩),
       ("X-3", ⟨some "No", none, none⟩)]
      [("X-1", ⟨some "Yes", none, none⟩), ("X-2", ⟨some "Yes", none, none⟩),
       ("X-3", ⟨some "No", none, none⟩)] "X" (333/10) (667/10) (167/5)).2.mpr
  refine ⟨?_, ?_, ?_, ?_, ?_⟩
  · rw [hD]
    norm_num
  · rw [hD]
    norm_num [pctOf, round1, roundHalfEven]
  · rw [hD]
    norm_num [pctOf, round1, roundHalfEven]
  · norm_num [round1, roundHalfEven]
  · norm_num

end Hecvat
